import Mathlib

/-!
# NEXUS-R&D orchestration core: a shallow embedding

This file embeds the orchestration core of the NEXUS-R&D repository and
settles the frozen claims about it.  The repository ships the frontend
(`frontend/app/page.tsx`, `frontend/components/ResearchDashboard.tsx`,
`frontend/components/CitationGraph.tsx`), the architecture document
(`ARCHITECTURE.md`) and the README; the backend modules
(`backend/orchestrator.py`, `backend/agents/verifier.py`,
`backend/agents/synthesizer.py`, `backend/core/state_manager.py`) are
declared in those documents but their bodies are not present, so the
corresponding definitions below are modelled from the spec, as marked in
their doc comments.  Frontend logic (CitationGraph node/link construction,
the home-page form handler, the dashboard's agent table) is embedded
directly from the TypeScript source.
-/

namespace NexusRD

/-- The session phases.  Modelled from the spec: the state machine of
`backend/core/state_manager.py` is not under `src/`; the phase names are the
ones the spec and the dashboard (`ResearchDashboard.tsx`) use. -/
inductive Phase
  | queued
  | patent_search
  | market_analysis
  | tech_trends
  | verification
  | synthesis
  | completed
  | failed
deriving DecidableEq, Repr, Fintype

/-- Position of a phase in the fixed forward order; `failed` sits past the
end so that it is never "forward" of itself. -/
def Phase.idx : Phase → Nat
  | .queued => 0
  | .patent_search => 1
  | .market_analysis => 2
  | .tech_trends => 3
  | .verification => 4
  | .synthesis => 5
  | .completed => 6
  | .failed => 7

/-- A phase is terminal when it is `completed` or `failed`. -/
def Phase.isTerminal (p : Phase) : Bool :=
  p == .completed || p == .failed

/-- Modelled from the spec: the state machine validates that a requested
transition is legal — forward-only along the fixed order, or directly to
`failed` from a non-terminal phase. -/
def legalStep (a b : Phase) : Bool :=
  (!a.isTerminal && b == .failed) || (b != .failed && a.idx < b.idx)

/-- The phase sequence of a successful run. -/
def successRun : List Phase :=
  [.queued, .patent_search, .market_analysis, .tech_trends,
   .verification, .synthesis, .completed]

/-- The five agent kinds.  These are the keys of `AGENT_INFO` in
`ResearchDashboard.tsx` (patent_scout, market_analyst, tech_trend,
verifier, synthesizer). -/
inductive AgentId
  | patent_scout
  | market_analyst
  | tech_trend
  | verifier
  | synthesizer
deriving DecidableEq, Repr

/-- The fixed known set of agent identifiers declared at session creation. -/
def knownAgents : List AgentId :=
  [.patent_scout, .market_analyst, .tech_trend, .verifier, .synthesizer]

/-- Per-agent status values, as in the `AgentStatus` interface of
`ResearchDashboard.tsx`: `idle | running | completed | error`. -/
inductive AgentState
  | idle
  | running
  | completed
  | error
deriving DecidableEq, Repr

/-- One `agent_statuses` entry: status, optional current task, progress
0–100, result count (the `AgentStatus` interface in
`ResearchDashboard.tsx`). -/
structure AgentStatusEntry where
  status : AgentState
  current_task : Option String
  progress : Nat
  result_count : Nat
deriving DecidableEq, Repr

/-- A finding: raw agent output tagged with originating agent and
recursion depth.  Modelled from the spec (`findings` in the Session data
model). -/
structure Finding where
  agent : AgentId
  depth : Nat
  payload : String
deriving DecidableEq, Repr

/-- A claim extracted from findings: text, corroborating source
references, a confidence value, a disputed flag.  Modelled from the spec's
Claim data model; the README (`part_001`) shows `verify_claim` consuming
`claim` and `sources`. -/
structure Claim where
  text : String
  sources : List String
  confidence : ℚ
  disputed : Bool
deriving DecidableEq, Repr

/-- The terminal synthesis artifact, reduced to the fields the claims
mention.  Modelled from the spec's Report data model. -/
structure Report where
  opportunities : List (String × ℚ)
  total_sources_analyzed : Nat
deriving DecidableEq, Repr

/-- One research session.  Modelled from the spec's Session data model:
phase, per-agent statuses (a fixed-key association list), append-only
findings, a monotone `sources_analyzed` counter, an optional terminal
error, the report once completed.  `phaseHistory` records the sequence of
phases the session has been in, so that trace properties can be stated. -/
structure Session where
  phase : Phase
  agent_statuses : List (AgentId × AgentStatusEntry)
  findings : List Finding
  sources_analyzed : Nat
  error : Option String
  report : Option Report
  phaseHistory : List Phase
deriving DecidableEq, Repr

/-- A fresh session: phase `queued`, every known agent `idle`.  Modelled
from the spec (Orchestrator step 1). -/
def initSession : Session :=
  { phase := .queued
    agent_statuses := knownAgents.map fun a => (a, ⟨.idle, none, 0, 0⟩)
    findings := []
    sources_analyzed := 0
    error := none
    report := none
    phaseHistory := [.queued] }

/-- Update the status entry of one agent in place; no key is ever inserted
or removed. -/
def setStatus (l : List (AgentId × AgentStatusEntry)) (a : AgentId)
    (e : AgentStatusEntry) : List (AgentId × AgentStatusEntry) :=
  l.map fun kv => if kv.1 = a then (kv.1, e) else kv

/-- Record a phase transition, appending it to the history. -/
def transitionTo (s : Session) (p : Phase) : Session :=
  { s with phase := p, phaseHistory := s.phaseHistory ++ [p] }

/-- Mark a session failed with its single terminal error message.
Modelled from the spec: `error` is set only when the phase becomes
`failed`. -/
def failSession (s : Session) (msg : String) : Session :=
  { transitionTo s .failed with error := some msg }

/-- A successful agent result: raw findings, a result count, extracted
claims.  Modelled from the spec's `AgentResult` contract (§4.1). -/
structure AgentResult where
  findings : List String
  result_count : Nat
  claims : List Claim
deriving DecidableEq, Repr

/-- The outcome of one agent invocation: success, or any error whatsoever
(timeout included — the spec treats a timed-out call identically to an
agent error). -/
inductive AgentOutcome
  | ok (r : AgentResult)
  | err (e : String)
deriving DecidableEq, Repr

/-- Modelled from the spec and from the `_run_agent` snippet in
`ARCHITECTURE.md` (lines 180–188): the orchestrator catches any agent
failure at the call boundary, records `status: error` for that agent only,
and lets the session continue with an empty result set from that agent; a
success appends the agent's findings and adds its `result_count` to
`sources_analyzed`. -/
def run_agent (s : Session) (a : AgentId) (depth : Nat)
    (outcome : AgentOutcome) : Session :=
  match outcome with
  | .ok r =>
      { s with
        agent_statuses :=
          setStatus s.agent_statuses a ⟨.completed, none, 100, r.result_count⟩
        findings := s.findings ++ r.findings.map fun p => ⟨a, depth, p⟩
        sources_analyzed := s.sources_analyzed + r.result_count }
  | .err _ =>
      { s with
        agent_statuses := setStatus s.agent_statuses a ⟨.error, none, 0, 0⟩ }

/-- Build the terminal report from the accumulated session state.
Modelled from the spec (synthesis folds findings into a Report whose
metadata carries the total sources analyzed). -/
def mkReport (s : Session) : Report :=
  { opportunities := s.findings.map fun f => (f.payload, 0)
    total_sources_analyzed := s.sources_analyzed }

/-- Modelled from the spec's Orchestrator (§4.4): drive the phases in the
fixed order, run each phase's agents, then verification, then synthesis,
then complete.  `exec` stands for the external agent bodies (the spec's
collaborators): it gives each agent's outcome. -/
def runSession (exec : AgentId → AgentOutcome) : Session :=
  let s1 := transitionTo initSession .patent_search
  let s2 := run_agent s1 .patent_scout 0 (exec .patent_scout)
  let s3 := transitionTo s2 .market_analysis
  let s4 := run_agent s3 .market_analyst 0 (exec .market_analyst)
  let s5 := transitionTo s4 .tech_trends
  let s6 := run_agent s5 .tech_trend 0 (exec .tech_trend)
  let s7 := transitionTo s6 .verification
  let s8 := run_agent s7 .verifier 0 (exec .verifier)
  let s9 := transitionTo s8 .synthesis
  let s10 := run_agent s9 .synthesizer 0 (exec .synthesizer)
  let s11 := { s10 with report := some (mkReport s10) }
  transitionTo s11 .completed

/-- Look up the status of one agent in a session. -/
def agentStatusOf (s : Session) (a : AgentId) : Option AgentState :=
  (s.agent_statuses.lookup a).map AgentStatusEntry.status

/-- Modelled from the spec (§4.6) and the `verify_claim` snippet in the
README (`part_001` lines 167–175): if counter-evidence is found, mark the
claim `disputed = true` and set confidence to the fixed low band 0.4
(= 2/5); otherwise promote to `disputed = false` at the fixed high band
0.9 (= 9/10) when the claim had at least one corroborating source, else
leave the claim unchanged. -/
def verify_claim (c : Claim) (counter_evidence : List String) : Claim :=
  if counter_evidence ≠ [] then
    { c with disputed := true, confidence := 2/5 }
  else if 1 ≤ c.sources.length then
    { c with disputed := false, confidence := 9/10 }
  else c

/-- The four scoring factors of a whitespace opportunity; `none` is a
missing factor.  Modelled from the spec (§4.6) and the Investment Score
formula in the README (`part_001` lines 197–203). -/
structure ScoreFactors where
  claim_confidence : Option ℚ
  market_impact : Option ℚ
  timing_window : Option ℚ
  competition_gap : Option ℚ
deriving DecidableEq, Repr

/-- A missing factor is treated as 0, never as an error. -/
def factorVal (o : Option ℚ) : ℚ := o.getD 0

/-- Modelled from the spec (§4.6) and the README formula:
`score = 25·claim_confidence + 25·market_impact + 25·timing_window +
25·competition_gap`, a missing factor contributing 0. -/
def investment_score (f : ScoreFactors) : ℚ :=
  25 * factorVal f.claim_confidence + 25 * factorVal f.market_impact +
    25 * factorVal f.timing_window + 25 * factorVal f.competition_gap

/-- Whether two sub-query texts coincide up to case and surrounding
whitespace (the spec's duplicate test is case-insensitive and
whitespace-normalized). -/
def normalizeQuery (t : String) : String :=
  t.trim.toLower

/-- A sub-query spawned by the Expander: parent finding reference,
generated text, recursion depth (parent depth + 1), origin agent.
Modelled from the spec's SubQuery data model. -/
structure SubQuery where
  parentPayload : String
  text : String
  depth : Nat
  origin : AgentId
deriving DecidableEq, Repr

/-- Modelled from the spec's Recursive Query Expander (§4.2): propose at
most `K` candidate sub-queries for a finding, reject any whose resulting
depth (`f.depth + 1`) would exceed `maxDepth`, and reject duplicates of
already-processed texts. -/
def expandFinding (maxDepth K : Nat) (processed : List String)
    (f : Finding) (candidates : List String) : List SubQuery :=
  if f.depth + 1 ≤ maxDepth then
    (candidates.take K).filterMap fun t =>
      if normalizeQuery t ∈ processed.map normalizeQuery then none
      else some ⟨f.payload, t, f.depth + 1, f.agent⟩
  else []

/-- Client-facing errors of `get_report`.  Modelled from the spec's
external interface (§6). -/
inductive ReportError
  | NotReady
  | Failed (msg : String)
deriving DecidableEq, Repr

/-- Modelled from the spec (§6): `get_report` yields the Report only when
the phase is `completed`; fails with `Failed` carrying the session's one
terminal message when the phase is `failed`; fails with `NotReady`
otherwise. -/
def get_report (s : Session) : Except ReportError Report :=
  match s.phase, s.report with
  | .completed, some r => .ok r
  | .completed, none => .error .NotReady
  | .failed, _ => .error (.Failed ((s.error).getD "Research failed"))
  | _, _ => .error .NotReady

/-- The mutations the spec allows on a live session (state machine §4.3:
status/findings/counter updates within a phase, phase transitions, the
terminal failure). -/
inductive SessionOp
  | setPhase (p : Phase)
  | updateStatus (a : AgentId) (e : AgentStatusEntry)
  | appendFinding (f : Finding)
  | addSources (n : Nat)
  | setReport (r : Report)
  | fail (msg : String)
deriving DecidableEq, Repr

/-- Apply one session mutation. -/
def applyOp (s : Session) : SessionOp → Session
  | .setPhase p => transitionTo s p
  | .updateStatus a e => { s with agent_statuses := setStatus s.agent_statuses a e }
  | .appendFinding f => { s with findings := s.findings ++ [f] }
  | .addSources n => { s with sources_analyzed := s.sources_analyzed + n }
  | .setReport r => { s with report := some r }
  | .fail msg => failSession s msg

/-- Apply a sequence of session mutations. -/
def runOps (s : Session) (ops : List SessionOp) : Session :=
  ops.foldl applyOp s

/-- A patent as the `Patent` interface of `CitationGraph.tsx` declares it:
id, title, optional assignee/url, optional citation lists. -/
structure Patent where
  patent_id : String
  title : String
  assignee : Option String
  url : Option String
  citing_patents : Option (List String)
  cited_patents : Option (List String)
deriving DecidableEq, Repr

/-- A node of the citation graph, as built in `CitationGraph.tsx`. -/
structure GraphNode where
  id : String
  title : String
  assignee : String
  url : String
  connections : ℚ
deriving DecidableEq, Repr

/-- Node construction from `CitationGraph.tsx` (lines 50–56):
`patents.slice(0, 30).map(...)`; the title is truncated to 50 characters
with an ellipsis; a missing assignee becomes "Unknown", a missing url "";
`connections` adds `Math.random() * 5`, modelled by the parameter
`connRand` giving that draw per node index. -/
def mkNodes (patents : List Patent) (connRand : Nat → ℚ) : List GraphNode :=
  (patents.take 30).enum.map fun ip =>
    { id := ip.2.patent_id
      title := ip.2.title.take 50 ++ (if 50 < ip.2.title.length then "..." else "")
      assignee := (ip.2.assignee).getD "Unknown"
      url := (ip.2.url).getD ""
      connections :=
        (((ip.2.citing_patents).getD []).length +
          ((ip.2.cited_patents).getD []).length : ℚ) + connRand ip.1 }

/-- A link of the citation graph, recorded by node index; the source code
stores `nodes[i].id` and `nodes[targetIdx].id` at these indices. -/
structure GraphLink where
  source : Nat
  target : Nat
deriving DecidableEq, Repr

/-- Link construction from `CitationGraph.tsx` (lines 59–72): for each
node index `i`, draw `numConnections = Math.floor(Math.random() * 3)`
(parameter `numConn`), then for each draw a random
`targetIdx = Math.floor(Math.random() * nodes.length)` (parameter
`target`), and push a link only when `targetIdx !== i`. -/
def mkLinks (nodes : List GraphNode) (numConn : Nat → Nat)
    (target : Nat → Nat → Nat) : List GraphLink :=
  (List.range nodes.length).flatMap fun i =>
    (List.range (numConn i)).filterMap fun j =>
      let t := target i j
      if t ≠ i then some ⟨i, t⟩ else none

/-- The whitespace characters `String.prototype.trim` strips (the common
JavaScript WhiteSpace and LineTerminator code points). -/
def isJsWhitespace (c : Char) : Bool :=
  c = ' ' || c = '\t' || c = '\n' || c = '\r' || c = '\x0B' || c = '\x0C' ||
    c = '\u00A0' || c = '\uFEFF'

/-- `String.prototype.trim`: drop leading and trailing whitespace. -/
def jsTrim (s : List Char) : List Char :=
  ((s.dropWhile isJsWhitespace).reverse.dropWhile isJsWhitespace).reverse

/-- The home-page state touched by `handleStartResearch` in
`frontend/app/page.tsx`: the query text and the `isResearching` /
`sessionId` React state. -/
structure HomeState where
  isResearching : Bool
  sessionId : Option String
  query : List Char
deriving DecidableEq, Repr

/-- The possible outcomes of the backend `fetch` in `handleStartResearch`:
an ok response carrying a session id, a non-ok HTTP status, or a thrown
network error. -/
inductive FetchOutcome
  | ok (session_id : String)
  | httpError (code : Nat)
  | networkError
deriving DecidableEq, Repr

/-- `handleStartResearch` from `frontend/app/page.tsx` (lines 68–101):
`if (!query.trim()) return;` — an empty trimmed query returns early with
no request and no state change.  Otherwise a request is made: an ok
response sets `sessionId` and `isResearching`; any error leaves the state
as it was (an alert is shown).  The first component records whether a
backend request was performed. -/
def handleStartResearch (st : HomeState) (backend : FetchOutcome) :
    Bool × HomeState :=
  if (jsTrim st.query).isEmpty then (false, st)
  else
    match backend with
    | .ok sid => (true, { st with sessionId := some sid, isResearching := true })
    | .httpError _ => (true, st)
    | .networkError => (true, st)

/-- A present scoring factor lies in [0, 1]; a missing one contributes 0. -/
def factorInRange (o : Option ℚ) : Prop :=
  0 ≤ factorVal o ∧ factorVal o ≤ 1

instance (o : Option ℚ) : Decidable (factorInRange o) := by
  unfold factorInRange; infer_instance

/-- The `agent_statuses` entry `run_agent` writes for an outcome:
completed with the result count on success, error on any failure. -/
def outcomeEntry : AgentOutcome → AgentStatusEntry
  | .ok r => ⟨.completed, none, 100, r.result_count⟩
  | .err _ => ⟨.error, none, 0, 0⟩

/-- One always-failing agent and four always-succeeding ones, for
exercising graceful degradation. -/
def execOneFail : AgentId → AgentOutcome
  | .patent_scout => .err "boom"
  | _ => .ok ⟨["f"], 2, []⟩

/-- All agents succeed with no results. -/
def execAllOk : AgentId → AgentOutcome :=
  fun _ => .ok ⟨[], 0, []⟩

/-! ## Helper lemmas -/

/-- `setStatus` never changes the key list. -/
theorem keys_setStatus (l : List (AgentId × AgentStatusEntry)) (a : AgentId)
    (e : AgentStatusEntry) :
    (setStatus l a e).map Prod.fst = l.map Prod.fst := by
  induction l with
  | nil => rfl
  | cons kv t ih =>
      simp only [setStatus, List.map_cons] at ih ⊢
      split <;> simp [ih]

/-- `setStatus` distributes over cons. -/
theorem setStatus_cons (kv : AgentId × AgentStatusEntry)
    (t : List (AgentId × AgentStatusEntry)) (a : AgentId)
    (e : AgentStatusEntry) :
    setStatus (kv :: t) a e =
      (if kv.1 = a then (kv.1, e) else kv) :: setStatus t a e := rfl

/-- Looking up the agent just written finds the new entry, provided the
agent already had an entry. -/
theorem lookup_setStatus_self (l : List (AgentId × AgentStatusEntry))
    (a : AgentId) (e : AgentStatusEntry) (hmem : a ∈ l.map Prod.fst) :
    (setStatus l a e).lookup a = some e := by
  induction l with
  | nil => simp at hmem
  | cons kv t ih =>
      simp only [List.map_cons, List.mem_cons] at hmem
      rw [setStatus_cons]
      by_cases hk : kv.1 = a
      · rw [if_pos hk, hk]
        simp [List.lookup]
      · have hmem' : a ∈ t.map Prod.fst := by
          rcases hmem with h | h
          · exact absurd h.symm hk
          · exact h
        rw [if_neg hk]
        have hne : (a == kv.1) = false := by
          simp [beq_iff_eq]
          exact fun h => hk h.symm
        simp [List.lookup, hne, ih hmem']

/-- Looking up a different agent is unaffected by `setStatus`. -/
theorem lookup_setStatus_ne (l : List (AgentId × AgentStatusEntry))
    (a b : AgentId) (e : AgentStatusEntry) (hne : b ≠ a) :
    (setStatus l a e).lookup b = l.lookup b := by
  induction l with
  | nil => rfl
  | cons kv t ih =>
      rw [setStatus_cons]
      by_cases hk : kv.1 = a
      · rw [if_pos hk]
        have hb : (b == kv.1) = false := by
          simp [beq_iff_eq]
          intro h; exact hne (h.trans hk)
        simp [List.lookup, hb, ih]
      · rw [if_neg hk]
        by_cases hb : b = kv.1
        · simp [List.lookup, hb]
        · have hb' : (b == kv.1) = false := by simp [beq_iff_eq, hb]
          simp [List.lookup, hb', ih]

/-- `run_agent` only touches statuses, findings and the counter. -/
theorem run_agent_phase (s : Session) (a : AgentId) (d : Nat)
    (o : AgentOutcome) : (run_agent s a d o).phase = s.phase := by
  cases o <;> rfl

/-- `run_agent` leaves the phase history untouched. -/
theorem run_agent_phaseHistory (s : Session) (a : AgentId) (d : Nat)
    (o : AgentOutcome) : (run_agent s a d o).phaseHistory = s.phaseHistory := by
  cases o <;> rfl

/-- The statuses after `run_agent` are a single `setStatus` write. -/
theorem run_agent_statuses (s : Session) (a : AgentId) (d : Nat)
    (o : AgentOutcome) :
    (run_agent s a d o).agent_statuses =
      setStatus s.agent_statuses a (outcomeEntry o) := by
  cases o <;> rfl

/-- `transitionTo` only touches the phase and its history. -/
theorem transitionTo_statuses (s : Session) (p : Phase) :
    (transitionTo s p).agent_statuses = s.agent_statuses := rfl

/-- `transitionTo` leaves the findings untouched. -/
theorem transitionTo_findings (s : Session) (p : Phase) :
    (transitionTo s p).findings = s.findings := rfl

/-- The fresh session's status keys are exactly the known agents. -/
theorem keys_initSession :
    initSession.agent_statuses.map Prod.fst = knownAgents := rfl

/-- Every agent has an entry in the fresh session. -/
theorem mem_keys_initSession (a : AgentId) :
    a ∈ initSession.agent_statuses.map Prod.fst := by
  rw [keys_initSession]
  cases a <;> simp [knownAgents]

/-- The statuses of a full run are five `setStatus` writes, one per agent,
over the fresh statuses. -/
theorem runSession_statuses (exec : AgentId → AgentOutcome) :
    (runSession exec).agent_statuses =
      setStatus (setStatus (setStatus (setStatus (setStatus
        initSession.agent_statuses
        .patent_scout (outcomeEntry (exec .patent_scout)))
        .market_analyst (outcomeEntry (exec .market_analyst)))
        .tech_trend (outcomeEntry (exec .tech_trend)))
        .verifier (outcomeEntry (exec .verifier)))
        .synthesizer (outcomeEntry (exec .synthesizer)) := by
  simp [runSession, run_agent_statuses, transitionTo_statuses]

/-- After a full run, each agent's status is determined by its own
outcome: completed on success, error on failure. -/
theorem agentStatusOf_runSession (exec : AgentId → AgentOutcome)
    (a : AgentId) :
    agentStatusOf (runSession exec) a =
      some ((outcomeEntry (exec a)).status) := by
  have k0 := keys_initSession
  have k1 : (setStatus initSession.agent_statuses .patent_scout
      (outcomeEntry (exec .patent_scout))).map Prod.fst = knownAgents := by
    rw [keys_setStatus, k0]
  have k2 : (setStatus (setStatus initSession.agent_statuses .patent_scout
      (outcomeEntry (exec .patent_scout))) .market_analyst
      (outcomeEntry (exec .market_analyst))).map Prod.fst = knownAgents := by
    rw [keys_setStatus, k1]
  have k3 : (setStatus (setStatus (setStatus initSession.agent_statuses
      .patent_scout (outcomeEntry (exec .patent_scout))) .market_analyst
      (outcomeEntry (exec .market_analyst))) .tech_trend
      (outcomeEntry (exec .tech_trend))).map Prod.fst = knownAgents := by
    rw [keys_setStatus, k2]
  have k4 : (setStatus (setStatus (setStatus (setStatus
      initSession.agent_statuses .patent_scout
      (outcomeEntry (exec .patent_scout))) .market_analyst
      (outcomeEntry (exec .market_analyst))) .tech_trend
      (outcomeEntry (exec .tech_trend))) .verifier
      (outcomeEntry (exec .verifier))).map Prod.fst = knownAgents := by
    rw [keys_setStatus, k3]
  unfold agentStatusOf
  rw [runSession_statuses]
  cases a
  case patent_scout =>
    rw [lookup_setStatus_ne _ _ _ _ (by decide),
      lookup_setStatus_ne _ _ _ _ (by decide),
      lookup_setStatus_ne _ _ _ _ (by decide),
      lookup_setStatus_ne _ _ _ _ (by decide),
      lookup_setStatus_self _ _ _ (mem_keys_initSession _)]
    rfl
  case market_analyst =>
    rw [lookup_setStatus_ne _ _ _ _ (by decide),
      lookup_setStatus_ne _ _ _ _ (by decide),
      lookup_setStatus_ne _ _ _ _ (by decide),
      lookup_setStatus_self _ _ _ (by rw [k1]; simp [knownAgents])]
    rfl
  case tech_trend =>
    rw [lookup_setStatus_ne _ _ _ _ (by decide),
      lookup_setStatus_ne _ _ _ _ (by decide),
      lookup_setStatus_self _ _ _ (by rw [k2]; simp [knownAgents])]
    rfl
  case verifier =>
    rw [lookup_setStatus_ne _ _ _ _ (by decide),
      lookup_setStatus_self _ _ _ (by rw [k3]; simp [knownAgents])]
    rfl
  case synthesizer =>
    rw [lookup_setStatus_self _ _ _ (by rw [k4]; simp [knownAgents])]
    rfl

/-- A finding present after `run_agent` was either already present or was
contributed by this very agent, and then only on success. -/
theorem mem_findings_run_agent (s : Session) (a : AgentId) (d : Nat)
    (o : AgentOutcome) (f : Finding)
    (hf : f ∈ (run_agent s a d o).findings) :
    f ∈ s.findings ∨ (f.agent = a ∧ ∃ r, o = .ok r) := by
  cases o with
  | ok r =>
      simp only [run_agent, List.mem_append, List.mem_map] at hf
      rcases hf with h | ⟨p, _, rfl⟩
      · exact Or.inl h
      · exact Or.inr ⟨rfl, r, rfl⟩
  | err e => exact Or.inl hf

/-- Every finding accumulated by a full run was contributed by an agent
whose own invocation succeeded: a failed agent contributes nothing. -/
theorem mem_findings_runSession (exec : AgentId → AgentOutcome) (f : Finding)
    (hf : f ∈ (runSession exec).findings) :
    ∃ r, exec f.agent = .ok r := by
  simp only [runSession, transitionTo_findings] at hf
  rcases mem_findings_run_agent _ _ _ _ _ hf with h5 | ⟨ha, r, hr⟩
  · rw [transitionTo_findings] at h5
    rcases mem_findings_run_agent _ _ _ _ _ h5 with h4 | ⟨ha, r, hr⟩
    · rw [transitionTo_findings] at h4
      rcases mem_findings_run_agent _ _ _ _ _ h4 with h3 | ⟨ha, r, hr⟩
      · rw [transitionTo_findings] at h3
        rcases mem_findings_run_agent _ _ _ _ _ h3 with h2 | ⟨ha, r, hr⟩
        · rw [transitionTo_findings] at h2
          rcases mem_findings_run_agent _ _ _ _ _ h2 with h1 | ⟨ha, r, hr⟩
          · rw [transitionTo_findings] at h1
            simp [initSession] at h1
          · exact ⟨r, by rw [ha, hr]⟩
        · exact ⟨r, by rw [ha, hr]⟩
      · exact ⟨r, by rw [ha, hr]⟩
    · exact ⟨r, by rw [ha, hr]⟩
  · exact ⟨r, by rw [ha, hr]⟩

/-- `applyOp` never changes the status key list. -/
theorem applyOp_keys (s : Session) (op : SessionOp) :
    (applyOp s op).agent_statuses.map Prod.fst =
      s.agent_statuses.map Prod.fst := by
  cases op <;> simp [applyOp, keys_setStatus, transitionTo_statuses, failSession]

/-- No mutation sequence changes the status key list. -/
theorem runOps_keys (ops : List SessionOp) : ∀ (s : Session),
    (runOps s ops).agent_statuses.map Prod.fst =
      s.agent_statuses.map Prod.fst := by
  induction ops with
  | nil => intro s; rfl
  | cons op t ih =>
      intro s
      show (runOps (applyOp s op) t).agent_statuses.map Prod.fst = _
      rw [ih, applyOp_keys]

/-! ## Claims -/

/-- C1: for every claim and every counter-evidence search, if
counter-evidence is found, verification marks the claim `disputed = true`
with confidence exactly 0.4 (= 2/5), regardless of the claim's
pre-verification confidence. -/
theorem C1_counter_evidence_disputes (c : Claim) (ce : List String)
    (h : ce ≠ []) :
    (verify_claim c ce).disputed = true ∧
      (verify_claim c ce).confidence = 2/5 := by
  simp [verify_claim, h]

/-- C1, instantiated: a claim at full pre-verification confidence ends
disputed at confidence 2/5 once counter-evidence is found. -/
theorem C1_counter_evidence_disputes_witness :
    (["counter"] : List String) ≠ [] ∧
      (verify_claim ⟨"claim", ["src"], 1, false⟩ ["counter"]).disputed = true ∧
      (verify_claim ⟨"claim", ["src"], 1, false⟩ ["counter"]).confidence = 2/5 :=
  ⟨by decide,
    C1_counter_evidence_disputes ⟨"claim", ["src"], 1, false⟩ ["counter"]
      (by decide)⟩

/-- C2: with no counter-evidence found, verification promotes the claim to
`disputed = false` at confidence 0.9 (= 9/10) exactly when the claim had
at least one corroborating source; with no corroborating source the claim
is left entirely unchanged. -/
theorem C2_no_counter_evidence_promotion (c : Claim) :
    (c.sources ≠ [] →
      (verify_claim c []).disputed = false ∧
        (verify_claim c []).confidence = 9/10) ∧
    (c.sources = [] → verify_claim c [] = c) := by
  constructor
  · intro h
    have hlen : 1 ≤ c.sources.length := by
      cases hs : c.sources with
      | nil => exact absurd hs h
      | cons x xs => simp
    simp [verify_claim, hlen]
  · intro h
    simp [verify_claim, h]

/-- C2, instantiated: a corroborated claim is promoted to 9/10 and an
uncorroborated one is untouched. -/
theorem C2_no_counter_evidence_promotion_witness :
    ((verify_claim ⟨"a", ["s"], 1/2, true⟩ []).disputed = false ∧
        (verify_claim ⟨"a", ["s"], 1/2, true⟩ []).confidence = 9/10) ∧
      verify_claim ⟨"b", [], 1/2, false⟩ [] = ⟨"b", [], 1/2, false⟩ :=
  ⟨(C2_no_counter_evidence_promotion ⟨"a", ["s"], 1/2, true⟩).1 (by decide),
    (C2_no_counter_evidence_promotion ⟨"b", [], 1/2, false⟩).2 rfl⟩

/-- C3: for factors in [0, 1] (a missing factor treated as 0, never as an
error), the investment score is `25·claim_confidence + 25·market_impact +
25·timing_window + 25·competition_gap` and lies in [0, 100]; all four
factors at 1 give 100, all at 0 give 0, and omitting any one factor
strictly lowers the score versus the same inputs with that factor present
and positive. -/
theorem C3_investment_score_properties (f : ScoreFactors)
    (h₁ : factorInRange f.claim_confidence)
    (h₂ : factorInRange f.market_impact)
    (h₃ : factorInRange f.timing_window)
    (h₄ : factorInRange f.competition_gap) :
    (investment_score f =
        25 * factorVal f.claim_confidence + 25 * factorVal f.market_impact +
          25 * factorVal f.timing_window + 25 * factorVal f.competition_gap) ∧
      (0 ≤ investment_score f ∧ investment_score f ≤ 100) ∧
      investment_score ⟨some 1, some 1, some 1, some 1⟩ = 100 ∧
      investment_score ⟨some 0, some 0, some 0, some 0⟩ = 0 ∧
      (∀ x : ℚ, 0 < x →
        investment_score { f with claim_confidence := none } <
          investment_score { f with claim_confidence := some x }) ∧
      (∀ x : ℚ, 0 < x →
        investment_score { f with market_impact := none } <
          investment_score { f with market_impact := some x }) ∧
      (∀ x : ℚ, 0 < x →
        investment_score { f with timing_window := none } <
          investment_score { f with timing_window := some x }) ∧
      (∀ x : ℚ, 0 < x →
        investment_score { f with competition_gap := none } <
          investment_score { f with competition_gap := some x }) := by
  obtain ⟨h₁a, h₁b⟩ := h₁
  obtain ⟨h₂a, h₂b⟩ := h₂
  obtain ⟨h₃a, h₃b⟩ := h₃
  obtain ⟨h₄a, h₄b⟩ := h₄
  refine ⟨rfl, ⟨?_, ?_⟩, ?_, ?_, ?_, ?_, ?_, ?_⟩
  · unfold investment_score; linarith
  · unfold investment_score; linarith
  · norm_num [investment_score, factorVal]
  · norm_num [investment_score, factorVal]
  all_goals
    intro x hx
    simp only [investment_score, factorVal, Option.getD]
    linarith

/-- C3, instantiated at concrete factors. -/
theorem C3_investment_score_properties_witness :
    factorInRange (some (1/2)) ∧ factorInRange (none : Option ℚ) ∧
      factorInRange (some 1) ∧ factorInRange (some 0) ∧
      (0 ≤ investment_score ⟨some (1/2), none, some 1, some 0⟩ ∧
        investment_score ⟨some (1/2), none, some 1, some 0⟩ ≤ 100) :=
  ⟨by norm_num [factorInRange, factorVal], by norm_num [factorInRange, factorVal],
    by norm_num [factorInRange, factorVal], by norm_num [factorInRange, factorVal],
    (C3_investment_score_properties ⟨some (1/2), none, some 1, some 0⟩
      (by norm_num [factorInRange, factorVal])
      (by norm_num [factorInRange, factorVal])
      (by norm_num [factorInRange, factorVal])
      (by norm_num [factorInRange, factorVal])).2.1⟩

/-- C4: any agent error (whatever its cause) is absorbed at the call
boundary: that agent alone gets status `error` and contributes no
findings, every succeeding agent gets status `completed`, and the session
still reaches `completed` instead of aborting. -/
theorem C4_graceful_degradation (exec : AgentId → AgentOutcome) :
    (runSession exec).phase = .completed ∧
      (∀ a e, exec a = .err e →
        agentStatusOf (runSession exec) a = some .error ∧
          ∀ f ∈ (runSession exec).findings, f.agent ≠ a) ∧
      (∀ a r, exec a = .ok r →
        agentStatusOf (runSession exec) a = some .completed) := by
  refine ⟨rfl, ?_, ?_⟩
  · intro a e h
    constructor
    · rw [agentStatusOf_runSession, h]
      rfl
    · intro f hf heq
      obtain ⟨r, hr⟩ := mem_findings_runSession exec f hf
      rw [heq, h] at hr
      cases hr
  · intro a r h
    rw [agentStatusOf_runSession, h]
    rfl

/-- C4, instantiated: with `patent_scout` always failing and the other
agents succeeding, the session completes, the failing agent reads `error`
with no contributed findings, and the succeeding agents read
`completed`. -/
theorem C4_graceful_degradation_witness :
    (runSession execOneFail).phase = .completed ∧
      agentStatusOf (runSession execOneFail) .patent_scout = some .error ∧
      agentStatusOf (runSession execOneFail) .market_analyst = some .completed ∧
      agentStatusOf (runSession execOneFail) .tech_trend = some .completed := by
  have h := C4_graceful_degradation execOneFail
  exact ⟨h.1, (h.2.1 .patent_scout "boom" rfl).1,
    h.2.2 .market_analyst ⟨["f"], 2, []⟩ rfl,
    h.2.2 .tech_trend ⟨["f"], 2, []⟩ rfl⟩

/-- C5: the phase of a run moves forward along the fixed order — a full
run observes exactly `queued → patent_search → market_analysis →
tech_trends → verification → synthesis → completed` — every legal
transition either goes forward (never regressing) or goes to `failed`,
and `failed` is reachable only from a non-terminal phase. -/
theorem C5_phase_forward_only (exec : AgentId → AgentOutcome) :
    (runSession exec).phaseHistory = successRun ∧
      List.Chain' (fun a b => legalStep a b = true) successRun ∧
      (∀ a b : Phase, legalStep a b = true → b = .failed ∨ a.idx < b.idx) ∧
      (∀ a b : Phase, legalStep a b = true → b = .failed →
        a.isTerminal = false) := by
  refine ⟨?_, ?_, by decide, by decide⟩
  · simp [runSession, run_agent_phaseHistory, transitionTo, initSession,
      successRun]
  · simp only [successRun, List.chain'_cons, List.chain'_singleton]
    exact ⟨rfl, rfl, rfl, rfl, rfl, rfl, trivial⟩

/-- C5, instantiated: the all-success run's history, and one concrete
legal step asserted non-regressing. -/
theorem C5_phase_forward_only_witness :
    (runSession execAllOk).phaseHistory = successRun ∧
      (Phase.patent_search = .failed ∨
        Phase.idx .queued < Phase.idx .patent_search) := by
  have h := C5_phase_forward_only execAllOk
  exact ⟨h.1, h.2.2.1 .queued .patent_search (by decide)⟩

/-- C6: `get_report` yields a Report only when the session's phase is
`completed`; a `failed` session yields `Failed` with the session's single
terminal message (never a Report); any other phase yields `NotReady`. -/
theorem C6_get_report_gate (s : Session) :
    (∀ r, get_report s = .ok r → s.phase = .completed) ∧
      (s.phase = .failed →
        get_report s = .error (.Failed ((s.error).getD "Research failed")) ∧
          ∀ r, get_report s ≠ .ok r) ∧
      (s.phase ≠ .completed → s.phase ≠ .failed →
        get_report s = .error .NotReady) ∧
      (∀ exec, ∃ r, get_report (runSession exec) = .ok r) := by
  refine ⟨?_, ?_, ?_, ?_⟩
  · intro r h
    cases hp : s.phase
    all_goals cases hr : s.report
    all_goals simp [get_report, hp, hr] at h
    all_goals rfl
  · intro hp
    cases hr : s.report
    all_goals simp [get_report, hp, hr]
  · intro h1 h2
    cases hp : s.phase <;> cases hr : s.report <;>
      simp_all [get_report]
  · intro exec
    exact ⟨_, rfl⟩

/-- C6, instantiated: a failed session yields exactly its terminal
message, and a completed run yields a Report. -/
theorem C6_get_report_gate_witness :
    (get_report (failSession initSession "boom") = .error (.Failed "boom") ∧
        ∀ r, get_report (failSession initSession "boom") ≠ .ok r) ∧
      (∃ r, get_report (runSession execAllOk) = .ok r) :=
  ⟨(C6_get_report_gate (failSession initSession "boom")).2.1 rfl,
    (C6_get_report_gate (runSession execAllOk)).2.2.2 execAllOk⟩

/-- C7: across any sequence of session mutations, and across a full run,
`agent_statuses` holds exactly one entry per agent of the fixed known set
declared at creation — entries are never added or removed and every key
is drawn from that set. -/
theorem C7_agent_statuses_fixed_keys (ops : List SessionOp)
    (exec : AgentId → AgentOutcome) :
    ((runOps initSession ops).agent_statuses.map Prod.fst = knownAgents) ∧
      ((runSession exec).agent_statuses.map Prod.fst = knownAgents) ∧
      knownAgents.Nodup := by
  refine ⟨?_, ?_, by decide⟩
  · rw [runOps_keys, keys_initSession]
  · rw [runSession_statuses]
    simp [keys_setStatus, keys_initSession]

/-- C7, instantiated on a concrete mutation sequence. -/
theorem C7_agent_statuses_fixed_keys_witness :
    (runOps initSession [.setPhase .patent_search, .addSources 3,
        .updateStatus .verifier ⟨.running, some "checking", 10, 0⟩]).agent_statuses.map
      Prod.fst = knownAgents :=
  (C7_agent_statuses_fixed_keys
    [.setPhase .patent_search, .addSources 3,
      .updateStatus .verifier ⟨.running, some "checking", 10, 0⟩]
    execAllOk).1

/-- C8: the Expander never proposes a sub-query whose resulting depth
exceeds `max_recursion_depth`; with `max_recursion_depth = 0` it proposes
no sub-query at all, whatever the finding and candidates. -/
theorem C8_expander_depth_bound (maxDepth K : Nat) (processed : List String)
    (f : Finding) (candidates : List String) :
    (∀ sq ∈ expandFinding maxDepth K processed f candidates,
        sq.depth ≤ maxDepth) ∧
      (maxDepth = 0 → expandFinding maxDepth K processed f candidates = []) := by
  constructor
  · intro sq hsq
    unfold expandFinding at hsq
    split at hsq
    · next hle =>
        simp only [List.mem_filterMap] at hsq
        obtain ⟨t, _, hmem⟩ := hsq
        split at hmem
        · exact absurd hmem (by simp)
        · cases hmem
          exact hle
    · simp at hsq
  · intro h
    subst h
    unfold expandFinding
    rw [if_neg (by omega)]

/-- C8, instantiated: depth 0 plus budget 2 admits the sub-query at depth
1, and budget 0 admits nothing. -/
theorem C8_expander_depth_bound_witness :
    (⟨"f", "a", 1, .patent_scout⟩ : SubQuery) ∈
        expandFinding 2 3 [] ⟨.patent_scout, 0, "f"⟩ ["a"] ∧
      (⟨"f", "a", 1, .patent_scout⟩ : SubQuery).depth ≤ 2 ∧
      expandFinding 0 3 [] ⟨.patent_scout, 0, "f"⟩ ["a"] = [] := by
  refine ⟨?_, ?_, (C8_expander_depth_bound 0 3 [] ⟨.patent_scout, 0, "f"⟩ ["a"]).2 rfl⟩
  · decide
  · exact (C8_expander_depth_bound 2 3 [] ⟨.patent_scout, 0, "f"⟩ ["a"]).1 _ (by decide)

/-- C9: `CitationGraph` builds exactly `min(length, 30)` nodes from its
patents array, and every generated link has a target index distinct from
its source index — no node is ever linked to itself, whatever the random
draws. -/
theorem C9_citation_graph_bounds (patents : List Patent) (connRand : Nat → ℚ)
    (numConn : Nat → Nat) (target : Nat → Nat → Nat) :
    (mkNodes patents connRand).length = min patents.length 30 ∧
      ∀ l ∈ mkLinks (mkNodes patents connRand) numConn target,
        l.target ≠ l.source := by
  constructor
  · simp [mkNodes, Nat.min_comm]
  · intro l hl
    simp only [mkLinks, List.mem_flatMap, List.mem_filterMap,
      List.mem_range] at hl
    obtain ⟨i, _, j, _, hmem⟩ := hl
    split at hmem
    · next ht =>
        cases hmem
        exact ht
    · exact absurd hmem (by simp)

/-- C9, instantiated: two patents, one random out-link each, aimed at the
other node — two nodes, and both links are off-diagonal. -/
theorem C9_citation_graph_bounds_witness :
    (⟨0, 1⟩ : GraphLink) ∈
        mkLinks (mkNodes [⟨"P1", "t1", none, none, none, none⟩,
            ⟨"P2", "t2", none, none, none, none⟩] fun _ => 0)
          (fun _ => 1) (fun i _ => (i + 1) % 2) ∧
      (⟨0, 1⟩ : GraphLink).target ≠ (⟨0, 1⟩ : GraphLink).source ∧
      (mkNodes [⟨"P1", "t1", none, none, none, none⟩,
          ⟨"P2", "t2", none, none, none, none⟩] fun _ => 0).length =
        min 2 30 := by
  refine ⟨?_, ?_, ?_⟩
  · decide
  · exact (C9_citation_graph_bounds
      [⟨"P1", "t1", none, none, none, none⟩, ⟨"P2", "t2", none, none, none, none⟩]
      (fun _ => 0) (fun _ => 1) (fun i _ => (i + 1) % 2)).2 _ (by decide)
  · exact (C9_citation_graph_bounds
      [⟨"P1", "t1", none, none, none, none⟩, ⟨"P2", "t2", none, none, none, none⟩]
      (fun _ => 0) (fun _ => 1) (fun i _ => (i + 1) % 2)).1

/-- C10: submitting the home-page form with a query that is empty or all
whitespace performs no backend request and leaves the page state
(`sessionId`, `isResearching`) unchanged: `handleStartResearch` returns
early. -/
theorem C10_blank_query_no_request (st : HomeState) (backend : FetchOutcome)
    (h : ∀ c ∈ st.query, isJsWhitespace c = true) :
    handleStartResearch st backend = (false, st) := by
  have hdrop : st.query.dropWhile isJsWhitespace = [] :=
    List.dropWhile_eq_nil_iff.mpr h
  have htrim : jsTrim st.query = [] := by
    simp [jsTrim, hdrop]
  simp [handleStartResearch, htrim]

/-- C10, instantiated: a space-and-tab query triggers no request and no
state change, whatever the backend would have answered. -/
theorem C10_blank_query_no_request_witness :
    (∀ c ∈ ([' ', '\t'] : List Char), isJsWhitespace c = true) ∧
      handleStartResearch ⟨false, none, [' ', '\t']⟩ (.ok "sid") =
        (false, ⟨false, none, [' ', '\t']⟩) :=
  ⟨by decide,
    C10_blank_query_no_request ⟨false, none, [' ', '\t']⟩ (.ok "sid")
      (by decide)⟩

end NexusRD
